import Mathlib

/-!
Verification of the orchestration core of the aec-ai-news backend
(`backend/agents/orchestrator/agent.py`, together with the base classes in
`multi-agent-architecture.py`).

The embedding below translates the data model and the operations of
`OrchestratorAgent` into Lean:

* Python `datetime` values are modelled as `Nat` microseconds since the epoch
  (`datetime` has microsecond resolution); `timedelta(minutes=m)` and
  `timedelta(days=d)` become explicit microsecond counts.
* The rendered timestamp `strftime('%Y%m%d-%H%M%S')` used inside task ids is
  modelled by the number of whole seconds (`secondStamp`): two datetimes render
  to the same string exactly when they lie in the same second, and distinct
  seconds render to distinct strings.  A task id is therefore modelled as the
  pair of its literal prefix and that stamp.
* The priority queue is `heapq` from the Python standard library; `heappush`,
  `heappop`, `_siftdown` and `_siftup` are translated statement by statement
  from CPython's `Lib/heapq.py`, over `List ScheduledTask` with the
  `ScheduledTask.__lt__` comparison of the source.
* Python dictionaries keyed by strings/task ids are association lists with
  dictionary update (`alSet`), lookup (`alGet`) and `pop` (`alRemove`).
* The orchestrator's mutable fields become an `OrchestratorState` record and
  each coroutine becomes a state-transforming function.  Where the claims are
  about Python object identity (in-place mutation versus fresh instances), a
  small object-store model (`TaskObjectStore`) makes identity explicit:
  containers hold references (indices) into a store of field records.
* `asyncio.Semaphore(max_concurrent_tasks)` together with the
  dispatch/execute/finish structure of `_scheduler_loop`/`_execute_task` is
  modelled as a labelled transition system `SchedStep` whose reachable states
  are analysed for the concurrency bound.
-/

/-! ### Time model -/

/-- Number of microseconds in one second; Python `datetime` values are modelled
as microseconds since the epoch. -/
def secondUs : Nat := 1000000

/-- Microseconds of `timedelta(minutes=m)`. -/
def timedeltaMinutes (m : Nat) : Nat := m * 60 * secondUs

/-- Microseconds of `timedelta(days=d)`. -/
def timedeltaDays (d : Nat) : Nat := d * 24 * 60 * 60 * secondUs

/-- Model of `strftime('%Y%m%d-%H%M%S')`: the rendered string is determined by
(and determines) the whole second the datetime lies in. -/
def secondStamp (t : Nat) : Nat := t / secondUs

/-- Model of task-id strings such as `f"discovery-{...:%Y%m%d-%H%M%S}"`: the
literal prefix together with the rendered second stamp.  Two such strings are
equal iff the prefixes are equal and the stamps are equal. -/
structure TaskId where
  tag : String
  stamp : Nat
deriving DecidableEq, Inhabited

/-! ### Data model (`multi-agent-architecture.py` lines 30-59,
`orchestrator/agent.py` lines 36-70) -/

/-- `AgentStatus` enum of `multi-agent-architecture.py`. -/
inductive AgentStatus where
  | idle
  | working
  | error
  | completed
deriving DecidableEq, Inhabited

/-- `AgentTask` dataclass of `multi-agent-architecture.py` (lines 52-59): the
`data` payload is opaque to the orchestrator and modelled as string pairs. -/
structure AgentTask where
  task_id : TaskId
  agent_type : String
  priority : Nat
  data : List (String × String)
  created_at : Nat
  status : AgentStatus := .idle
deriving DecidableEq, Inhabited

/-- `TaskPriority` enum (`agent.py` lines 36-42). -/
inductive TaskPriority where
  | CRITICAL
  | HIGH
  | MEDIUM
  | LOW
  | BACKGROUND
deriving DecidableEq, Inhabited

/-- The `.value` of each `TaskPriority` member. -/
def TaskPriority.value : TaskPriority → Nat
  | .CRITICAL => 1
  | .HIGH => 2
  | .MEDIUM => 3
  | .LOW => 4
  | .BACKGROUND => 5

/-- `ScheduledTask` dataclass (`agent.py` lines 44-58). -/
structure ScheduledTask where
  task : AgentTask
  scheduled_time : Nat
  priority : TaskPriority
  retry_count : Nat := 0
  max_retries : Nat := 3
  agent_target : String := ""
deriving DecidableEq, Inhabited

/-- `ScheduledTask.__lt__` (`agent.py` lines 54-58):
`if self.priority.value != other.priority.value: return self.priority.value <
other.priority.value` / `return self.scheduled_time < other.scheduled_time`. -/
def ScheduledTask.lt (a b : ScheduledTask) : Bool :=
  if a.priority.value ≠ b.priority.value then
    decide (a.priority.value < b.priority.value)
  else
    decide (a.scheduled_time < b.scheduled_time)

/-! ### The priority queue: CPython `heapq`

`_add_task_to_queue` calls `heapq.heappush` (line 450) and `_scheduler_loop`
calls `heapq.heappop` (line 490).  The definitions below are the CPython
`Lib/heapq.py` algorithms, with the in-place array writes made explicit through
`List.set`. -/

/-- Loop body of CPython `heapq._siftdown(heap, startpos, pos)` after
`newitem = heap[pos]` has been read: while `pos > startpos`, compare `newitem`
with `heap[(pos-1)>>1]`; move the parent down and continue, or place `newitem`
and stop. -/
def siftdownAux (heap : List ScheduledTask) (startpos : Nat)
    (newitem : ScheduledTask) (pos : Nat) : List ScheduledTask :=
  if _h : startpos < pos then
    if ScheduledTask.lt newitem (heap.getD ((pos - 1) / 2) default) then
      siftdownAux (heap.set pos (heap.getD ((pos - 1) / 2) default)) startpos
        newitem ((pos - 1) / 2)
    else
      heap.set pos newitem
  else
    heap.set pos newitem
termination_by pos
decreasing_by simp_wf; omega

/-- CPython `heapq._siftdown(heap, startpos, pos)`. -/
def siftdown (heap : List ScheduledTask) (startpos pos : Nat) :
    List ScheduledTask :=
  siftdownAux heap startpos (heap.getD pos default) pos

/-- CPython `heapq.heappush(heap, item)`: `heap.append(item)` followed by
`_siftdown(heap, 0, len(heap)-1)`. -/
def heappush (heap : List ScheduledTask) (item : ScheduledTask) :
    List ScheduledTask :=
  siftdown (heap ++ [item]) 0 heap.length

/-- Loop body of CPython `heapq._siftup(heap, pos)` after
`newitem = heap[pos]` has been read: bubble the smaller child up into the hole
until a leaf is reached, then place `newitem` there and `_siftdown` back
towards `startpos`. -/
def siftupAux (heap : List ScheduledTask) (startpos : Nat)
    (newitem : ScheduledTask) (pos : Nat) : List ScheduledTask :=
  if hc : 2 * pos + 1 < heap.length then
    if _hr : 2 * pos + 2 < heap.length ∧
        ScheduledTask.lt (heap.getD (2 * pos + 1) default)
          (heap.getD (2 * pos + 2) default) = false then
      siftupAux (heap.set pos (heap.getD (2 * pos + 2) default)) startpos
        newitem (2 * pos + 2)
    else
      siftupAux (heap.set pos (heap.getD (2 * pos + 1) default)) startpos
        newitem (2 * pos + 1)
  else
    siftdown (heap.set pos newitem) startpos pos
termination_by heap.length - pos
decreasing_by
  · simp_wf; omega
  · simp_wf; omega

/-- CPython `heapq._siftup(heap, pos)` (with `startpos = pos`). -/
def siftup (heap : List ScheduledTask) (pos : Nat) : List ScheduledTask :=
  siftupAux heap pos (heap.getD pos default) pos

/-- CPython `heapq.heappop(heap)`: pop the last element; if the heap is still
non-empty, read the root as the return value, move the last element to the
root and `_siftup`; an empty heap raises `IndexError`, modelled as `none`. -/
def heappop (heap : List ScheduledTask) :
    Option (ScheduledTask × List ScheduledTask) :=
  match heap.getLast? with
  | none => none
  | some lastelt =>
    let rest := heap.dropLast
    match rest.head? with
    | none => some (lastelt, [])
    | some returnitem => some (returnitem, siftup (rest.set 0 lastelt) 0)

/-- The inner dispatch loop of `_scheduler_loop` (`agent.py` lines 489-493):
`while self.task_queue and self.task_queue[0].scheduled_time <= current_time:`
pop the queue with `heapq.heappop` and dispatch the popped task
(`asyncio.create_task(self._execute_task(...))`).  Returns the dispatched
tasks, in dispatch order, and the remaining queue. -/
def processDueAux : Nat → List ScheduledTask → Nat →
    List ScheduledTask × List ScheduledTask
  | 0, queue, _ => ([], queue)
  | fuel + 1, queue, now =>
    match queue with
    | [] => ([], [])
    | q0 :: _ =>
      if q0.scheduled_time ≤ now then
        match heappop queue with
        | some (item, rest) =>
          let dr := processDueAux fuel rest now
          (item :: dr.1, dr.2)
        | none => ([], queue)
      else ([], queue)

/-- The dispatch loop of `_scheduler_loop` never needs more iterations than the
queue length, since each `heappop` removes one element; `processDue` runs it to
completion. -/
def processDue (queue : List ScheduledTask) (now : Nat) :
    List ScheduledTask × List ScheduledTask :=
  processDueAux queue.length queue now

/-! ### Python dictionaries as association lists -/

/-- Dictionary lookup `m.get(k)` / `m[k]`. -/
def alGet {κ β : Type} [DecidableEq κ] (m : List (κ × β)) (k : κ) : Option β :=
  match m with
  | [] => none
  | (k1, v) :: rest => if k1 = k then some v else alGet rest k

/-- Dictionary update `m[k] = v`. -/
def alSet {κ β : Type} [DecidableEq κ] (m : List (κ × β)) (k : κ) (v : β) :
    List (κ × β) :=
  match m with
  | [] => [(k, v)]
  | (k1, v1) :: rest =>
    if k1 = k then (k, v) :: rest else (k1, v1) :: alSet rest k v

/-- Dictionary removal `m.pop(k, None)`. -/
def alRemove {κ β : Type} [DecidableEq κ] (m : List (κ × β)) (k : κ) :
    List (κ × β) :=
  match m with
  | [] => []
  | (k1, v1) :: rest => if k1 = k then rest else (k1, v1) :: alRemove rest k

/-! ### Agent health (`agent.py` lines 60-70) and its updates -/

/-- `AgentHealth` dataclass (`agent.py` lines 60-70); `average_response_time`
is a Python float, modelled as a rational. -/
structure AgentHealth where
  agent_id : String
  status : AgentStatus
  last_heartbeat : Nat
  error_count : Nat := 0
  success_count : Nat := 0
  average_response_time : ℚ := 0
  is_healthy : Bool := true
  last_error : Option String := none

/-- Health update performed by `_handle_agent_error` when `agent_id` has a
health record (`agent.py` lines 303-309): `error_count += 1`,
`last_error = error_message`, `is_healthy = error_count < 5` (the hard-coded
threshold), with the cumulative — not consecutive — error count. -/
def handleErrorHealthUpdate (h : AgentHealth) (error_message : Option String) :
    AgentHealth :=
  { h with
    error_count := h.error_count + 1
    last_error := error_message
    is_healthy := decide (h.error_count + 1 < 5) }

/-- Health update performed by `_execute_task` after the target agent ran
(`agent.py` lines 526-538): refresh `last_heartbeat`; on `"success"` increment
`success_count` and fold the execution time into the running average; otherwise
increment `error_count`.  Neither branch touches `is_healthy`. -/
def execHealthUpdate (h : AgentHealth) (now : Nat) (success : Bool)
    (execution_time : ℚ) : AgentHealth :=
  let h1 := { h with last_heartbeat := now }
  if success then
    let sc := h1.success_count + 1
    { h1 with
      success_count := sc
      average_response_time :=
        (h1.average_response_time * ((sc : ℚ) - 1) + execution_time) / (sc : ℚ) }
  else
    { h1 with error_count := h1.error_count + 1 }

/-- Health update performed by `_perform_health_checks` when
`agent.health_check()` returns (`agent.py` lines 562-566): `is_healthy` is set
to the probe result and the heartbeat refreshed; nothing else changes. -/
def probeHealthUpdate (h : AgentHealth) (now : Nat) (health_ok : Bool) :
    AgentHealth :=
  { h with is_healthy := health_ok, last_heartbeat := now }

/-- Health update performed by `_perform_health_checks` when the probe raises
(`agent.py` lines 568-572): `is_healthy = False` and `error_count += 1`. -/
def probeExceptionHealthUpdate (h : AgentHealth) : AgentHealth :=
  { h with is_healthy := false, error_count := h.error_count + 1 }

/-! ### Orchestrator state (`agent.py` lines 84-111) -/

/-- Result dictionary returned by a target agent's `process_task`; the
orchestrator reads only `result.get("status")`.  `new_articles` is the item
count a scout discovery reports (`scout/agent.py`), carried here to show the
orchestrator never consults it. -/
structure ExecResult where
  status : String
  new_articles : Nat := 0
deriving DecidableEq, Inhabited

/-- The mutable fields of `OrchestratorAgent` set up in `__init__`
(`agent.py` lines 84-111), with the configuration defaults of lines 88-91.
`registered_agents` keeps only the registered ids (the handler objects
themselves stay outside the model). -/
structure OrchestratorState where
  discovery_interval : Nat := 30
  health_check_interval : Nat := 5
  max_concurrent_tasks : Nat := 10
  task_queue : List ScheduledTask := []
  active_tasks : List (TaskId × ScheduledTask) := []
  completed_tasks : List ScheduledTask := []
  failed_tasks : List ScheduledTask := []
  registered_agents : List String := []
  agent_health : List (String × AgentHealth) := []
  is_running : Bool := false
  last_discovery : Option Nat := none
  last_newsletter : Option Nat := none

/-- The state right after `OrchestratorAgent.__init__` with default config. -/
def initialOrchestratorState : OrchestratorState := {}

/-- `_register_agent` (`agent.py` lines 350-384): both `agent_id` and
`agent_type` must be truthy; if an `agent_instance` is supplied it is stored in
`registered_agents`; `agent_health[agent_id]` is unconditionally replaced by a
fresh `AgentHealth` record (status `IDLE`, `is_healthy=True`, the dataclass
defaults `error_count=0`, `success_count=0`). -/
def registerAgent (st : OrchestratorState) (agent_id agent_type : String)
    (has_instance : Bool) (now : Nat) : Except String OrchestratorState :=
  if agent_id = "" ∨ agent_type = "" then
    .error "Agent ID and type required"
  else
    let st1 :=
      if has_instance then
        { st with registered_agents :=
            if st.registered_agents.contains agent_id then
              st.registered_agents
            else st.registered_agents ++ [agent_id] }
      else st
    let fresh : AgentHealth :=
      { agent_id := agent_id
        status := .idle
        last_heartbeat := now }
    .ok { st1 with agent_health := alSet st1.agent_health agent_id fresh }

/-- `_execute_task` (`agent.py` lines 506-554), run under the semaphore:
record the task in `active_tasks`; look up the target agent; if found, run it
(`outcome` is `.ok result` for a normal return and `.error e` when
`process_task` raises), update the target's health per `execHealthUpdate`, and
append the task to `completed_tasks` — regardless of the result's `status`
field; if the target is not registered, append to `failed_tasks`; on a raised
exception, append to `failed_tasks`.  In every case the task is removed from
`active_tasks` again. -/
def executeTask (st : OrchestratorState) (sch : ScheduledTask) (now : Nat)
    (outcome : Except String ExecResult) (execution_time : ℚ) :
    OrchestratorState :=
  let stA := { st with
    active_tasks := alSet st.active_tasks sch.task.task_id sch }
  if stA.registered_agents.contains sch.agent_target then
    match outcome with
    | .ok result =>
      let stB :=
        match alGet stA.agent_health sch.agent_target with
        | some h =>
          let h1 := execHealthUpdate h now (result.status == "success")
            execution_time
          { stA with
            agent_health := alSet stA.agent_health sch.agent_target h1 }
        | none => stA
      { stB with
        completed_tasks := stB.completed_tasks ++ [sch]
        active_tasks := alRemove stB.active_tasks sch.task.task_id }
    | .error _ =>
      { stA with
        failed_tasks := stA.failed_tasks ++ [sch]
        active_tasks := alRemove stA.active_tasks sch.task.task_id }
  else
    { stA with
      failed_tasks := stA.failed_tasks ++ [sch]
      active_tasks := alRemove stA.active_tasks sch.task.task_id }

/-- The `task_metrics` block of `_get_system_status` (`agent.py` lines
406-412): queue depth and active/completed/failed counts as reported to the
caller. -/
structure TaskMetrics where
  queue_size : Nat
  active_count : Nat
  completed_count : Nat
  failed_count : Nat
deriving DecidableEq

/-- `_get_system_status`, restricted to its `task_metrics` fields
(`agent.py` lines 406-412). -/
def getSystemStatusTaskMetrics (st : OrchestratorState) : TaskMetrics :=
  { queue_size := st.task_queue.length
    active_count := st.active_tasks.length
    completed_count := st.completed_tasks.length
    failed_count := st.failed_tasks.length }

/-- `_schedule_content_discovery` (`agent.py` lines 154-207): if no discovery
ran yet, or at least `discovery_interval` minutes passed since the last one,
build the scout `AgentTask` (id `f"discovery-{now:%Y%m%d-%H%M%S}"`, priority 2)
wrapped in a `ScheduledTask` (priority `HIGH`, due immediately), push it on the
queue and remember `last_discovery = now`; otherwise report "skipped". -/
def scheduleContentDiscovery (st : OrchestratorState) (now : Nat) :
    OrchestratorState × Option ScheduledTask :=
  let due :=
    match st.last_discovery with
    | none => true
    | some t =>
      decide ((now : Int) - t ≥ (timedeltaMinutes st.discovery_interval : Int))
  if due then
    let discovery_task : AgentTask :=
      { task_id := ⟨"discovery", secondStamp now⟩
        agent_type := "scout"
        priority := 2
        data := [("type", "discover_rss"), ("feeds", "None")]
        created_at := now }
    let scheduled_task : ScheduledTask :=
      { task := discovery_task
        scheduled_time := now
        priority := .HIGH
        agent_target := "scout" }
    ({ st with
        task_queue := heappush st.task_queue scheduled_task
        last_discovery := some now },
      some scheduled_task)
  else
    (st, none)

/-- `_coordinate_content_pipeline` (`agent.py` lines 209-288).  Curator branch
(lines 223-249): if `"scout"` has a health record that `is_healthy` with
`success_count > 0`, enqueue an `analyze_content` curator task (priority
`HIGH`, due immediately).  Newsletter branch (lines 252-277): if no newsletter
was generated yet or at least two days passed, enqueue a `generate_newsletter`
writer task (priority `CRITICAL`) and remember `last_newsletter = now`.
Returns the new state together with the tasks created on this tick. -/
def coordinateContentPipeline (st : OrchestratorState) (now : Nat) :
    OrchestratorState × List ScheduledTask :=
  let (st1, created1) :=
    match alGet st.agent_health "scout" with
    | some scout_health =>
      if scout_health.is_healthy ∧ scout_health.success_count > 0 then
        let curator_task : AgentTask :=
          { task_id := ⟨"curator", secondStamp now⟩
            agent_type := "curator"
            priority := 2
            data := [("type", "analyze_content"), ("source_agent", "scout")]
            created_at := now }
        let scheduled_curator : ScheduledTask :=
          { task := curator_task
            scheduled_time := now
            priority := .HIGH
            agent_target := "curator" }
        ({ st with task_queue := heappush st.task_queue scheduled_curator },
          [scheduled_curator])
      else (st, [])
    | none => (st, [])
  let newsletter_due :=
    match st1.last_newsletter with
    | none => true
    | some t => decide ((now : Int) - t ≥ (timedeltaDays 2 : Int))
  if newsletter_due then
    let writer_task : AgentTask :=
      { task_id := ⟨"newsletter", secondStamp now⟩
        agent_type := "writer"
        priority := 1
        data := [("type", "generate_newsletter"), ("trigger", "scheduled")]
        created_at := now }
    let scheduled_writer : ScheduledTask :=
      { task := writer_task
        scheduled_time := now
        priority := .CRITICAL
        agent_target := "writer" }
    ({ st1 with
        task_queue := heappush st1.task_queue scheduled_writer
        last_newsletter := some now },
      created1 ++ [scheduled_writer])
  else
    (st1, created1)

/-! ### Object-store model of the retry path of `_handle_agent_error`

The retry logic of `_handle_agent_error` (`agent.py` lines 314-332) mutates
the very `ScheduledTask` object it recovered from `active_tasks`.  To reason
about object identity, the store model below keeps every `ScheduledTask`
object in `objects`, addressed by an index that plays the role of the Python
object identity; `task_queue`, `active_tasks` and `failed_tasks` hold
references into the store.  (The queue position bookkeeping of
`heapq.heappush` is verified separately on the value-level `heappush` above;
here only which reference is enqueued matters.) -/

/-- Object store for the task containers of the orchestrator. -/
structure TaskObjectStore where
  objects : List ScheduledTask
  task_queue : List Nat := []
  active_tasks : List (TaskId × Nat) := []
  failed_tasks : List Nat := []

/-- The task-recovery part of `_handle_agent_error` (`agent.py` lines
314-332): pop the task from `active_tasks` by its id; if
`retry_count < max_retries`, then — in place on the recovered object —
`retry_count += 1`, `retry_delay = 2 ** retry_count` and
`scheduled_time = datetime.now() + timedelta(minutes=retry_delay)`, and push
the same object back onto the queue; otherwise append it to `failed_tasks`. -/
def handleAgentErrorRecovery (s : TaskObjectStore) (task_id : TaskId)
    (now : Nat) : TaskObjectStore :=
  match alGet s.active_tasks task_id with
  | none => s
  | some oid =>
    let s1 := { s with active_tasks := alRemove s.active_tasks task_id }
    match s1.objects.get? oid with
    | none => s1
    | some failed_task =>
      if failed_task.retry_count < failed_task.max_retries then
        let new_retry_count := failed_task.retry_count + 1
        let retry_delay := 2 ^ new_retry_count
        let mutated := { failed_task with
          retry_count := new_retry_count
          scheduled_time := now + timedeltaMinutes retry_delay }
        { s1 with
          objects := s1.objects.set oid mutated
          task_queue := s1.task_queue ++ [oid] }
      else
        { s1 with failed_tasks := s1.failed_tasks ++ [oid] }

/-! ### Concurrency gate of `_execute_task`

`__init__` line 109 creates `asyncio.Semaphore(max_concurrent_tasks)`; the
whole body of `_execute_task` runs inside `async with self.task_semaphore`
(lines 510-554).  The labelled transition system below models the lifecycle of
the coroutines spawned by the scheduler loop (line 493): `dispatch` spawns a
coroutine (`asyncio.create_task`), `acquire` is the semaphore entry — enabled
only while fewer than `max_concurrent_tasks` holders exist — and `release` is
the semaphore exit at the end of the `async with` block. -/

/-- Counters of the dispatch/execution lifecycle: coroutines created but
waiting at the semaphore, coroutines holding the semaphore (executing their
handler), and finished coroutines. -/
structure SchedState where
  max_concurrent_tasks : Nat
  waiting : Nat
  executing : Nat
  finished : Nat
deriving DecidableEq

/-- One step of the dispatch/execution lifecycle. -/
inductive SchedStep : SchedState → SchedState → Prop where
  | dispatch (s : SchedState) :
      SchedStep s { s with waiting := s.waiting + 1 }
  | acquire (s : SchedState) (hw : 0 < s.waiting)
      (hsem : s.executing < s.max_concurrent_tasks) :
      SchedStep s
        { s with waiting := s.waiting - 1, executing := s.executing + 1 }
  | release (s : SchedState) (he : 0 < s.executing) :
      SchedStep s
        { s with executing := s.executing - 1, finished := s.finished + 1 }

/-- The initial lifecycle state: a fresh semaphore of size
`max_concurrent_tasks`, no coroutines. -/
def initSchedState (max_concurrent_tasks : Nat) : SchedState :=
  { max_concurrent_tasks := max_concurrent_tasks
    waiting := 0
    executing := 0
    finished := 0 }

/-- States reachable from the initial state by any interleaving of dispatches,
semaphore acquisitions and completions. -/
def SchedReachable (max_concurrent_tasks : Nat) (s : SchedState) : Prop :=
  Relation.ReflTransGen SchedStep (initSchedState max_concurrent_tasks) s

/-! ### The queue order induced by `ScheduledTask.__lt__` -/

/-- Read of `heap[i]`, defaulting (like `List.getD`) for out-of-range reads;
all heap operations only ever read valid indices. -/
def fget (l : List ScheduledTask) (i : Nat) : ScheduledTask := l.getD i default

/-- Non-strict queue precedence: `tle a b` holds when `not (b < a)` under
`ScheduledTask.__lt__` — `a` is popped no later than `b` from a valid heap. -/
def tle (a b : ScheduledTask) : Prop := ScheduledTask.lt b a = false

/-- The dispatch-order relation the spec describes: strictly more urgent
priority first; within one priority level, non-decreasing scheduled time. -/
def queueOrder (a b : ScheduledTask) : Prop :=
  a.priority.value < b.priority.value ∨
    (a.priority.value = b.priority.value ∧ a.scheduled_time ≤ b.scheduled_time)

/-- The `heapq` invariant for a list viewed as a binary tree in array layout:
every non-root entry is no smaller than its parent at index `(j-1)/2`. -/
def IsHeap (l : List ScheduledTask) : Prop :=
  ∀ j, j < l.length → 0 < j → tle (fget l ((j - 1) / 2)) (fget l j)

/-! ### Concrete sample inputs used by the closed theorems below -/

/-- A `CRITICAL`-priority task scheduled 100 seconds after the epoch. -/
def critFutureTask : ScheduledTask :=
  { task := { task_id := ⟨"newsletter", 100⟩
              agent_type := "writer"
              priority := 1
              data := [("type", "generate_newsletter")]
              created_at := 0 }
    scheduled_time := 100 * secondUs
    priority := .CRITICAL
    agent_target := "writer" }

/-- A `LOW`-priority task due at the epoch. -/
def lowDueTask : ScheduledTask :=
  { task := { task_id := ⟨"cleanup", 0⟩
              agent_type := "monitor"
              priority := 4
              data := [("type", "cleanup")]
              created_at := 0 }
    scheduled_time := 0
    priority := .LOW
    agent_target := "monitor" }

/-- A `CRITICAL`-priority task due at the epoch. -/
def critNowTask : ScheduledTask :=
  { critFutureTask with scheduled_time := 0 }

/-- A `MEDIUM`-priority task due at the epoch. -/
def medNowTask : ScheduledTask :=
  { task := { task_id := ⟨"analysis", 0⟩
              agent_type := "curator"
              priority := 3
              data := [("type", "analyze_content")]
              created_at := 0 }
    scheduled_time := 0
    priority := .MEDIUM
    agent_target := "curator" }

/-- Three `MEDIUM`-priority tasks due 5, 10 and 20 microseconds in, used to
exhibit heap reordering under in-place mutation. -/
def medEarlyTask : ScheduledTask := { medNowTask with scheduled_time := 5 }

/-- Second of the three `MEDIUM` tasks. -/
def medMidTask : ScheduledTask := { medNowTask with scheduled_time := 10 }

/-- Third of the three `MEDIUM` tasks. -/
def medLateTask : ScheduledTask := { medNowTask with scheduled_time := 20 }

/-- The discovery `ScheduledTask` that `_schedule_content_discovery` builds at
time 0. -/
def sampleScoutSch : ScheduledTask :=
  { task := { task_id := ⟨"discovery", 0⟩
              agent_type := "scout"
              priority := 2
              data := [("type", "discover_rss"), ("feeds", "None")]
              created_at := 0 }
    scheduled_time := 0
    priority := .HIGH
    agent_target := "scout" }

/-- A one-object store whose single task is currently active. -/
def sampleStore : TaskObjectStore :=
  { objects := [sampleScoutSch]
    active_tasks := [(⟨"discovery", 0⟩, 0)] }

/-- State after registering the scout agent (with an instance) at time 0. -/
def registeredScoutState : OrchestratorState :=
  (registerAgent initialOrchestratorState "scout" "scout" true 0).toOption.getD
    initialOrchestratorState

/-- The discovery scheduled on the first tick at time 0. -/
def scheduledDiscovery : OrchestratorState × Option ScheduledTask :=
  scheduleContentDiscovery registeredScoutState 0

/-- State after the scheduled discovery executed with result
`{"status": "success", "new_articles": 0}`: a successful run that found
nothing. -/
def zeroItemSuccessState : OrchestratorState :=
  executeTask scheduledDiscovery.1 (scheduledDiscovery.2.getD default) 1
    (.ok { status := "success", new_articles := 0 }) 0

/-- A healthy scout health record with three recorded successes. -/
def healthyScoutHealth : AgentHealth := ⟨"scout", .idle, 0, 0, 3, 0, true, none⟩

/-- State with a healthy scout and a newsletter generated at time 0 (so only
the curator branch of the coordinator fires). -/
def healthyScoutState : OrchestratorState :=
  { initialOrchestratorState with
    agent_health := [("scout", healthyScoutHealth)]
    last_newsletter := some 0 }

/-- The curator task the coordinator creates from `healthyScoutState` at
time 300000 (0.3 seconds after the epoch, second stamp 0). -/
def curatorAtStampZero : ScheduledTask :=
  { task := { task_id := ⟨"curator", 0⟩
              agent_type := "curator"
              priority := 2
              data := [("type", "analyze_content"), ("source_agent", "scout")]
              created_at := 300000 }
    scheduled_time := 300000
    priority := .HIGH
    agent_target := "curator" }

/-! ### Length preservation of the heap operations -/

theorem siftdownAux_length (pos : Nat) : ∀ (heap : List ScheduledTask)
    (startpos : Nat) (newitem : ScheduledTask),
    (siftdownAux heap startpos newitem pos).length = heap.length := by
  induction pos using Nat.strong_induction_on with
  | _ pos ih =>
    intro heap startpos newitem
    rw [siftdownAux]
    split
    · split
      · rw [ih ((pos - 1) / 2) (by omega)]
        simp
      · simp
    · simp

theorem siftdown_length (heap : List ScheduledTask) (startpos pos : Nat) :
    (siftdown heap startpos pos).length = heap.length := by
  unfold siftdown; exact siftdownAux_length ..

theorem siftupAux_length (gap : Nat) : ∀ (heap : List ScheduledTask)
    (startpos : Nat) (newitem : ScheduledTask) (pos : Nat),
    gap = heap.length - pos →
    (siftupAux heap startpos newitem pos).length = heap.length := by
  induction gap using Nat.strong_induction_on with
  | _ gap ih =>
    intro heap startpos newitem pos hgap
    rw [siftupAux]
    split
    · split
      · rw [ih (heap.length - (2 * pos + 2)) (by omega) _ _ _ _ (by simp)]
        simp
      · rw [ih (heap.length - (2 * pos + 1)) (by omega) _ _ _ _ (by simp)]
        simp
    · rw [siftdown_length]; simp

theorem siftup_length (heap : List ScheduledTask) (pos : Nat) :
    (siftup heap pos).length = heap.length := by
  unfold siftup; exact siftupAux_length _ _ _ _ _ rfl

theorem heappop_length (heap : List ScheduledTask) (x : ScheduledTask)
    (rest : List ScheduledTask) (h : heappop heap = some (x, rest)) :
    rest.length + 1 = heap.length := by
  have hdrop : heap.dropLast.length = heap.length - 1 := heap.length_dropLast
  unfold heappop at h
  cases hl : heap.getLast? with
  | none => simp [hl] at h
  | some lastelt =>
    have hne : heap ≠ [] := by rintro rfl; simp at hl
    have hpos : 0 < heap.length := List.length_pos.mpr hne
    simp only [hl] at h
    cases hh : heap.dropLast.head? with
    | none =>
      have hnil : heap.dropLast = [] := by
        cases hd : heap.dropLast with
        | nil => rfl
        | cons a t => rw [hd] at hh; simp at hh
      simp only [hh, Option.some.injEq, Prod.mk.injEq] at h
      rw [← h.2]
      rw [hnil] at hdrop
      simp at hdrop ⊢
      omega
    | some returnitem =>
      simp only [hh, Option.some.injEq, Prod.mk.injEq] at h
      rw [← h.2, siftup_length]
      simp
      omega

/-! ### Helper lemmas -/

theorem alGet_alSet_self {κ β : Type} [DecidableEq κ] (m : List (κ × β))
    (k : κ) (v : β) : alGet (alSet m k v) k = some v := by
  induction m with
  | nil => simp [alSet, alGet]
  | cons p rest ih =>
    obtain ⟨k1, v1⟩ := p
    by_cases h : k1 = k
    · simp [alSet, alGet, h]
    · simp [alSet, alGet, h, ih]

theorem schedReachable_bound_invariant (m : Nat) (s : SchedState)
    (h : SchedReachable m s) :
    s.max_concurrent_tasks = m ∧ s.executing ≤ m := by
  induction h with
  | refl => exact ⟨rfl, Nat.zero_le m⟩
  | tail _hab hbc ih =>
    cases hbc with
    | dispatch => exact ih
    | acquire hw hsem =>
      refine ⟨ih.1, ?_⟩
      have h1 := ih.1
      show _ + 1 ≤ m
      omega
    | release he =>
      refine ⟨ih.1, ?_⟩
      have h2 := ih.2
      show _ - 1 ≤ m
      omega

/-- C1: at every reachable state of the orchestrator, under any number of
enqueued and dispatched tasks, the number of tasks simultaneously executing
their handler (inside the `async with self.task_semaphore` region of
`_execute_task`, between dispatch and completion) never exceeds
`max_concurrent_tasks`. -/
theorem executing_never_exceeds_max_concurrent (m : Nat) (s : SchedState)
    (h : SchedReachable m s) : s.executing ≤ s.max_concurrent_tasks := by
  have hinv := schedReachable_bound_invariant m s h
  omega

/-- Witness for C1: a concrete reachable state with one dispatched and one
executing task under `max_concurrent_tasks = 1` satisfies the bound. -/
theorem executing_never_exceeds_max_concurrent_witness :
    SchedReachable 1 ⟨1, 1, 1, 0⟩ ∧
      (⟨1, 1, 1, 0⟩ : SchedState).executing ≤
        (⟨1, 1, 1, 0⟩ : SchedState).max_concurrent_tasks := by
  have hr : SchedReachable 1 ⟨1, 1, 1, 0⟩ := by
    have s0 : SchedStep (initSchedState 1) ⟨1, 1, 0, 0⟩ :=
      SchedStep.dispatch (initSchedState 1)
    have s1 : SchedStep (⟨1, 1, 0, 0⟩ : SchedState) ⟨1, 2, 0, 0⟩ :=
      SchedStep.dispatch ⟨1, 1, 0, 0⟩
    have s2 : SchedStep (⟨1, 2, 0, 0⟩ : SchedState) ⟨1, 1, 1, 0⟩ :=
      SchedStep.acquire ⟨1, 2, 0, 0⟩ (by decide) (by decide)
    exact Relation.ReflTransGen.tail
      (Relation.ReflTransGen.tail (Relation.ReflTransGen.single s0) s1) s2
  exact ⟨hr, executing_never_exceeds_max_concurrent 1 _ hr⟩

/-- C6 counterexample: the claim says an agent flips unhealthy after
`unhealthy_threshold` *consecutive execution failures* and flips healthy again
after exactly one subsequent success, resetting the error count.  In the code,
five consecutive execution failures recorded by `_execute_task` leave
`is_healthy` untouched (still `true`), and for an agent marked unhealthy by
the error handler, one successful execution neither restores `is_healthy` nor
resets the error count. -/
theorem health_not_restored_by_single_success :
    ((execHealthUpdate (execHealthUpdate (execHealthUpdate (execHealthUpdate
        (execHealthUpdate ⟨"scout", .idle, 0, 0, 0, 0, true, none⟩
        0 false 0) 0 false 0) 0 false 0) 0 false 0) 0 false 0).is_healthy
      = true) ∧
    ((handleErrorHealthUpdate (handleErrorHealthUpdate (handleErrorHealthUpdate
        (handleErrorHealthUpdate (handleErrorHealthUpdate
        ⟨"scout", .idle, 0, 0, 0, 0, true, none⟩
        (some "e")) (some "e")) (some "e")) (some "e")) (some "e")).is_healthy
      = false) ∧
    ((execHealthUpdate (handleErrorHealthUpdate (handleErrorHealthUpdate
        (handleErrorHealthUpdate (handleErrorHealthUpdate
        (handleErrorHealthUpdate ⟨"scout", .idle, 0, 0, 0, 0, true, none⟩
        (some "e")) (some "e")) (some "e")) (some "e")) (some "e"))
        1 true 0).is_healthy = false) ∧
    ((execHealthUpdate (handleErrorHealthUpdate (handleErrorHealthUpdate
        (handleErrorHealthUpdate (handleErrorHealthUpdate
        (handleErrorHealthUpdate ⟨"scout", .idle, 0, 0, 0, 0, true, none⟩
        (some "e")) (some "e")) (some "e")) (some "e")) (some "e"))
        1 true 0).error_count = 5) := by
  refine ⟨rfl, rfl, rfl, rfl⟩

/-- C6 (amended): `is_healthy` is recomputed only by the error handler — which
sets it to `error_count < 5` over the *cumulative* count — and by probes,
which copy the probe outcome; execution outcomes never change `is_healthy`
(success or failure), a successful execution does not reset the error count,
and a successful probe restores `is_healthy` without resetting the error
count. -/
theorem health_update_semantics :
    (∀ (h : AgentHealth) (msg : Option String),
      (handleErrorHealthUpdate h msg).is_healthy
          = decide (h.error_count + 1 < 5) ∧
        (handleErrorHealthUpdate h msg).error_count = h.error_count + 1) ∧
    (∀ (h : AgentHealth) (now : Nat) (q : ℚ),
      (execHealthUpdate h now true q).is_healthy = h.is_healthy ∧
        (execHealthUpdate h now true q).error_count = h.error_count ∧
        (execHealthUpdate h now true q).success_count = h.success_count + 1) ∧
    (∀ (h : AgentHealth) (now : Nat) (q : ℚ),
      (execHealthUpdate h now false q).is_healthy = h.is_healthy ∧
        (execHealthUpdate h now false q).error_count = h.error_count + 1) ∧
    (∀ (h : AgentHealth) (now : Nat) (ok : Bool),
      (probeHealthUpdate h now ok).is_healthy = ok ∧
        (probeHealthUpdate h now ok).error_count = h.error_count) ∧
    (∀ h : AgentHealth, (probeExceptionHealthUpdate h).is_healthy = false ∧
      (probeExceptionHealthUpdate h).error_count = h.error_count + 1) := by
  refine ⟨fun h msg => ⟨rfl, rfl⟩, fun h now q => ⟨rfl, rfl, rfl⟩,
    fun h now q => ⟨rfl, rfl⟩, fun h now ok => ⟨rfl, rfl⟩,
    fun h => ⟨rfl, rfl⟩⟩

/-- C10: registering an agent — including an id that is already registered —
replaces its `AgentHealth` entry by a fresh record with `is_healthy = true`,
`error_count = 0` and `success_count = 0`, erasing all prior history (provided
both `agent_id` and `agent_type` are non-empty, which `_register_agent`
validates first). -/
theorem register_agent_resets_health (st : OrchestratorState)
    (agent_id agent_type : String) (has_instance : Bool) (now : Nat)
    (hid : agent_id ≠ "") (hty : agent_type ≠ "") :
    ∃ st2, registerAgent st agent_id agent_type has_instance now = .ok st2 ∧
      alGet st2.agent_health agent_id = some
        { agent_id := agent_id
          status := .idle
          last_heartbeat := now
          error_count := 0
          success_count := 0
          average_response_time := 0
          is_healthy := true
          last_error := none } := by
  unfold registerAgent
  rw [if_neg (by simp [hid, hty])]
  exact ⟨_, rfl, alGet_alSet_self ..⟩

/-- Witness for C10: re-registering an agent that already has a degraded
health record (six errors, unhealthy) yields a fresh all-zero healthy
record. -/
theorem register_agent_resets_health_witness :
    ("scout" : String) ≠ "" ∧ ("scout_type" : String) ≠ "" ∧
    ∃ st2, registerAgent
        { initialOrchestratorState with
          agent_health :=
            [("scout", ⟨"scout", .error, 7, 6, 2, 0, false, some "boom"⟩)] }
        "scout" "scout_type" true 11 = .ok st2 ∧
      alGet st2.agent_health "scout" = some
        { agent_id := "scout"
          status := .idle
          last_heartbeat := 11
          error_count := 0
          success_count := 0
          average_response_time := 0
          is_healthy := true
          last_error := none } :=
  ⟨by decide, by decide,
    register_agent_resets_health _ "scout" "scout_type" true 11
      (by decide) (by decide)⟩

/-- The two terminal lists written by `_execute_task`: the task lands in
`completed_tasks` exactly when the target agent is registered and
`process_task` returned without raising (whatever the returned `status` says),
and in `failed_tasks` otherwise. -/
theorem executeTask_lists (st : OrchestratorState) (sch : ScheduledTask)
    (now : Nat) (outcome : Except String ExecResult) (q : ℚ) :
    (executeTask st sch now outcome q).completed_tasks
      = st.completed_tasks ++
        (if st.registered_agents.contains sch.agent_target ∧
            outcome.toOption.isSome then [sch] else []) ∧
    (executeTask st sch now outcome q).failed_tasks
      = st.failed_tasks ++
        (if st.registered_agents.contains sch.agent_target ∧
            outcome.toOption.isSome then [] else [sch]) := by
  by_cases hreg : sch.agent_target ∈ st.registered_agents
  · cases outcome with
    | ok result =>
      cases halg : alGet st.agent_health sch.agent_target with
      | none => simp [executeTask, halg, hreg, Except.toOption]
      | some h => simp [executeTask, halg, hreg, Except.toOption]
    | error e => simp [executeTask, hreg, Except.toOption]
  · cases outcome with
    | ok result => simp [executeTask, hreg, Except.toOption]
    | error e => simp [executeTask, hreg, Except.toOption]

/-- C8 counterexample: with the scout registered, a handler run that *returns
an error status* (`{"status": "error"}`) is still appended to
`completed_tasks`, not to `failed_tasks` — the claim that a task reaches
`completed_tasks` exactly when its execution succeeded is false. -/
theorem error_status_lands_in_completed :
    (executeTask { initialOrchestratorState with registered_agents := ["scout"] }
        sampleScoutSch 5 (.ok { status := "error" }) 0).completed_tasks
      = [sampleScoutSch] ∧
    (executeTask { initialOrchestratorState with registered_agents := ["scout"] }
        sampleScoutSch 5 (.ok { status := "error" }) 0).failed_tasks
      = ([] : List ScheduledTask) := ⟨rfl, rfl⟩

/-- C8 (amended): every dispatched task ends in exactly one terminal list —
`completed_tasks` exactly when a handler was registered for its target and the
handler returned without raising (regardless of the reported status), and
`failed_tasks` when no handler is registered or the execution raised; the
combined terminal count reported by `GetStatus` grows by exactly one. -/
theorem executeTask_exactly_one_terminal (st : OrchestratorState)
    (sch : ScheduledTask) (now : Nat) (outcome : Except String ExecResult)
    (q : ℚ) :
    (executeTask st sch now outcome q).completed_tasks
      = st.completed_tasks ++
        (if st.registered_agents.contains sch.agent_target ∧
            outcome.toOption.isSome then [sch] else []) ∧
    (executeTask st sch now outcome q).failed_tasks
      = st.failed_tasks ++
        (if st.registered_agents.contains sch.agent_target ∧
            outcome.toOption.isSome then [] else [sch]) ∧
    (getSystemStatusTaskMetrics (executeTask st sch now outcome q)).completed_count
        + (getSystemStatusTaskMetrics (executeTask st sch now outcome q)).failed_count
      = (getSystemStatusTaskMetrics st).completed_count
          + (getSystemStatusTaskMetrics st).failed_count + 1 := by
  obtain ⟨h1, h2⟩ := executeTask_lists st sch now outcome q
  refine ⟨h1, h2, ?_⟩
  by_cases hc : st.registered_agents.contains sch.agent_target = true ∧
      outcome.toOption.isSome = true
  · simp only [getSystemStatusTaskMetrics, h1, h2, if_pos hc,
      List.length_append, List.length_cons, List.length_nil]
    omega
  · simp only [getSystemStatusTaskMetrics, h1, h2, if_neg hc,
      List.length_append, List.length_cons, List.length_nil]
    omega

/-- C4 counterexample: for the first retry (`retry_count = 0`) at `now = 0`,
the requeued task is scheduled `2 ** 1` *minutes* out — 120 seconds — not the
`base_backoff_seconds * multiplier ** retry_count = 2` seconds the claim
derives from `base_backoff_seconds = 2`, `multiplier = 2`. -/
theorem retry_delay_is_minutes_not_seconds :
    ((handleAgentErrorRecovery sampleStore ⟨"discovery", 0⟩ 0).objects.get?
        0).map (fun t => t.scheduled_time) = some (120 * secondUs) ∧
      (120 * secondUs : Nat) ≠ 0 + 2 * secondUs := by decide

/-- C4 (amended): a transient failure with `retry_count < max_retries` is
requeued with `retry_count` incremented by one and
`scheduled_time = now + 2 ** (retry_count + 1)` *minutes* — the exponent uses
the already-incremented count, so successive delays are 2, 4, 8 minutes. -/
theorem retry_backoff_exponential_minutes (s : TaskObjectStore)
    (task_id : TaskId) (now oid : Nat) (t : ScheduledTask)
    (hact : alGet s.active_tasks task_id = some oid)
    (hobj : s.objects.get? oid = some t)
    (hrc : t.retry_count < t.max_retries) :
    (handleAgentErrorRecovery s task_id now).objects.get? oid =
      some { t with
        retry_count := t.retry_count + 1
        scheduled_time := now + timedeltaMinutes (2 ^ (t.retry_count + 1)) } := by
  have hlt : oid < s.objects.length := by
    rcases List.get?_eq_some.mp hobj with ⟨h1, -⟩
    exact h1
  unfold handleAgentErrorRecovery
  simp only [hact, hobj, if_pos hrc]
  exact List.get?_set_eq_of_lt _ hlt

/-- Witness for C4 (amended): the first retry of the sample task at `now = 7`
is requeued with `retry_count = 1` due 2 minutes later. -/
theorem retry_backoff_exponential_minutes_witness :
    alGet sampleStore.active_tasks ⟨"discovery", 0⟩ = some 0 ∧
      sampleStore.objects.get? 0 = some sampleScoutSch ∧
      sampleScoutSch.retry_count < sampleScoutSch.max_retries ∧
      (handleAgentErrorRecovery sampleStore ⟨"discovery", 0⟩ 7).objects.get? 0 =
        some { sampleScoutSch with
          retry_count := 1
          scheduled_time := 7 + timedeltaMinutes 2 } :=
  ⟨rfl, rfl, by decide,
    retry_backoff_exponential_minutes sampleStore ⟨"discovery", 0⟩ 7 0
      sampleScoutSch rfl rfl (by decide)⟩

/-- C5 counterexample: after the retry handling of `_handle_agent_error`, the
original object (store index 0) no longer carries its original field values —
it was mutated in place — the very same reference was pushed back on the
queue, and no new `ScheduledTask` instance was created. -/
theorem retry_mutates_original_instance :
    ((handleAgentErrorRecovery sampleStore ⟨"discovery", 0⟩ 0).objects.get? 0 ≠
        some sampleScoutSch) ∧
      (handleAgentErrorRecovery sampleStore ⟨"discovery", 0⟩ 0).task_queue
        = [0] ∧
      (handleAgentErrorRecovery sampleStore ⟨"discovery", 0⟩ 0).objects.length
        = sampleStore.objects.length := by decide

/-- C5 (amended): on a retryable failure the dispatched `ScheduledTask`
instance itself is mutated — `retry_count` incremented, `scheduled_time`
replaced — and the *same* instance is requeued; no new instance is created,
and all other fields of the object are unchanged. -/
theorem retry_requeues_same_object_in_place (s : TaskObjectStore)
    (task_id : TaskId) (now oid : Nat) (t : ScheduledTask)
    (hact : alGet s.active_tasks task_id = some oid)
    (hobj : s.objects.get? oid = some t)
    (hrc : t.retry_count < t.max_retries) :
    (handleAgentErrorRecovery s task_id now).objects.length
        = s.objects.length ∧
      (handleAgentErrorRecovery s task_id now).task_queue
        = s.task_queue ++ [oid] ∧
      ∃ t2, (handleAgentErrorRecovery s task_id now).objects.get? oid = some t2
        ∧ t2.retry_count = t.retry_count + 1 ∧ t2.task = t.task ∧
          t2.priority = t.priority ∧ t2.max_retries = t.max_retries ∧
          t2.agent_target = t.agent_target := by
  have hlt : oid < s.objects.length := by
    rcases List.get?_eq_some.mp hobj with ⟨h1, -⟩
    exact h1
  unfold handleAgentErrorRecovery
  simp only [hact, hobj, if_pos hrc]
  refine ⟨?_, ?_, ?_⟩
  · simp
  · trivial
  · exact ⟨_, List.get?_set_eq_of_lt _ hlt, rfl, rfl, rfl, rfl, rfl⟩

/-- Witness for C5 (amended): retrying the sample task keeps the store size at
one, requeues reference 0, and the stored object keeps every field except
`retry_count` and `scheduled_time`. -/
theorem retry_requeues_same_object_in_place_witness :
    alGet sampleStore.active_tasks ⟨"discovery", 0⟩ = some 0 ∧
      sampleStore.objects.get? 0 = some sampleScoutSch ∧
      sampleScoutSch.retry_count < sampleScoutSch.max_retries ∧
      ((handleAgentErrorRecovery sampleStore ⟨"discovery", 0⟩ 9).objects.length
          = sampleStore.objects.length ∧
        (handleAgentErrorRecovery sampleStore ⟨"discovery", 0⟩ 9).task_queue
          = sampleStore.task_queue ++ [0] ∧
        ∃ t2, (handleAgentErrorRecovery sampleStore ⟨"discovery", 0⟩
            9).objects.get? 0 = some t2 ∧
          t2.retry_count = sampleScoutSch.retry_count + 1 ∧
          t2.task = sampleScoutSch.task ∧
          t2.priority = sampleScoutSch.priority ∧
          t2.max_retries = sampleScoutSch.max_retries ∧
          t2.agent_target = sampleScoutSch.agent_target) :=
  ⟨rfl, rfl, by decide,
    retry_requeues_same_object_in_place sampleStore ⟨"discovery", 0⟩ 9 0
      sampleScoutSch rfl rfl (by decide)⟩

/-- C7 counterexample: after the scout is registered and a discovery run
completes successfully while reporting **zero** new items
(`new_articles = 0`), the next coordinator tick still enqueues a curator
(Analysis) task — the coordinator consults only the cumulative
`success_count`, never the per-run item count. -/
theorem zero_item_discovery_still_triggers_analysis :
    ((coordinateContentPipeline zeroItemSuccessState 2).2.map
        (fun sc => sc.agent_target)) = ["curator", "writer"] ∧
      (alGet zeroItemSuccessState.agent_health "scout").map
        (fun h => h.success_count) = some 1 ∧
      (alGet zeroItemSuccessState.agent_health "scout").map
        (fun h => h.is_healthy) = some true := by
  refine ⟨by decide, by decide, by decide⟩

/-- C7 (amended): on a coordinator tick, a curator (Analysis) task is enqueued
if and only if the scout has a health record that is healthy with *cumulative*
`success_count > 0`; the item count reported by any discovery run is never
consulted. -/
theorem curator_trigger_uses_cumulative_success (st : OrchestratorState)
    (now : Nat) :
    ((coordinateContentPipeline st now).2.map
        (fun sc => sc.agent_target)).contains "curator"
      = (match alGet st.agent_health "scout" with
         | some h => h.is_healthy && decide (h.success_count > 0)
         | none => false) := by
  cases halg : alGet st.agent_health "scout" with
  | none =>
    simp only [coordinateContentPipeline, halg]
    split <;> simp
  | some h =>
    by_cases hcond : (h.is_healthy : Prop) ∧ h.success_count > 0
    · have hh : (h.is_healthy && decide (h.success_count > 0)) = true := by
        simp [hcond.1, hcond.2]
      simp only [coordinateContentPipeline, halg, if_pos hcond]
      split <;> simp [hh]
    · have hh : (h.is_healthy && decide (h.success_count > 0)) = false := by
        cases hb : h.is_healthy with
        | false => simp
        | true =>
          simp only [hb] at hcond
          simp at hcond
          simp [hcond]
      simp only [coordinateContentPipeline, halg, if_neg hcond]
      split <;> simp [hh]

/-- C9 counterexample: two coordinator ticks 0.6 seconds apart — both within
epoch second 0 — each enqueue a curator task, and the two tasks carry the
*same* task id (`"curator-..."` rendered at second resolution), contradicting
the claim that enqueues with identical arguments always produce distinct
ids. -/
theorem same_second_enqueues_collide :
    ((coordinateContentPipeline healthyScoutState 300000).2.map
        (fun sc => sc.task.task_id)) = [⟨"curator", 0⟩] ∧
      ((coordinateContentPipeline
          (coordinateContentPipeline healthyScoutState 300000).1 900000).2.map
        (fun sc => sc.task.task_id)) = [⟨"curator", 0⟩] ∧
      (300000 : Nat) ≠ 900000 := by
  refine ⟨by decide, by decide, by decide⟩

/-- C9 (amended): curator task ids embed the creation time only at second
resolution — ids of enqueues in different seconds differ, ids of enqueues in
the same second coincide — and executions never erase one another's terminal
records: both terminal lists of `_execute_task` only ever grow. -/
theorem task_ids_second_resolution_and_append_only_records :
    (∀ (st : OrchestratorState) (now : Nat) (sc : ScheduledTask),
        sc ∈ (coordinateContentPipeline st now).2 →
        sc.agent_target = "curator" →
        sc.task.task_id = ⟨"curator", secondStamp now⟩) ∧
      ∀ (st : OrchestratorState) (sch : ScheduledTask) (now : Nat)
        (outcome : Except String ExecResult) (q : ℚ),
        st.completed_tasks <+:
            (executeTask st sch now outcome q).completed_tasks ∧
          st.failed_tasks <+: (executeTask st sch now outcome q).failed_tasks := by
  constructor
  · intro st now sc hmem htgt
    cases halg : alGet st.agent_health "scout" with
    | none =>
      simp only [coordinateContentPipeline, halg] at hmem
      split at hmem
      · simp at hmem
        subst hmem
        simp at htgt
      · simp at hmem
    | some h =>
      by_cases hcond : (h.is_healthy : Prop) ∧ h.success_count > 0
      · simp only [coordinateContentPipeline, halg, if_pos hcond] at hmem
        split at hmem
        · simp at hmem
          rcases hmem with hmem | hmem
          · subst hmem; rfl
          · subst hmem; simp at htgt
        · simp at hmem
          subst hmem; rfl
      · simp only [coordinateContentPipeline, halg, if_neg hcond] at hmem
        split at hmem
        · simp at hmem
          subst hmem
          simp at htgt
        · simp at hmem
  · intro st sch now outcome q
    obtain ⟨h1, h2⟩ := executeTask_lists st sch now outcome q
    rw [h1, h2]
    exact ⟨List.prefix_append .., List.prefix_append ..⟩

/-- Witness for C9 (amended): the curator task enqueued at 0.3 seconds after
the epoch carries the stamp of second 0, and a concrete failed execution
preserves the (empty) prior terminal lists as prefixes. -/
theorem task_ids_append_only_witness :
    (curatorAtStampZero ∈ (coordinateContentPipeline healthyScoutState
        300000).2 ∧
      curatorAtStampZero.agent_target = "curator" ∧
      curatorAtStampZero.task.task_id = ⟨"curator", secondStamp 300000⟩) ∧
      (initialOrchestratorState.completed_tasks <+:
        (executeTask initialOrchestratorState sampleScoutSch 1
          (.error "boom") 0).completed_tasks) :=
  ⟨⟨by decide, rfl,
      task_ids_second_resolution_and_append_only_records.1 healthyScoutState
        300000 curatorAtStampZero (by decide) rfl⟩,
    (task_ids_second_resolution_and_append_only_records.2
      initialOrchestratorState sampleScoutSch 1 (.error "boom") 0).1⟩

/-! ### Basic facts about the queue order -/

theorem st_lt_iff (a b : ScheduledTask) :
    ScheduledTask.lt a b = true ↔
      (a.priority.value < b.priority.value ∨
        (a.priority.value = b.priority.value ∧
          a.scheduled_time < b.scheduled_time)) := by
  rcases eq_or_ne a.priority.value b.priority.value with h | h <;>
    simp [ScheduledTask.lt, h]

theorem tle_iff_queueOrder (a b : ScheduledTask) : tle a b ↔ queueOrder a b := by
  unfold tle queueOrder
  rw [Bool.eq_false_iff, ne_eq, st_lt_iff]
  omega

theorem tle_refl (a : ScheduledTask) : tle a a := by
  rw [tle_iff_queueOrder]; unfold queueOrder; omega

theorem tle_trans {a b c : ScheduledTask} (h1 : tle a b) (h2 : tle b c) :
    tle a c := by
  rw [tle_iff_queueOrder] at h1 h2 ⊢
  unfold queueOrder at h1 h2 ⊢
  omega

theorem lt_imp_tle {a b : ScheduledTask} (h : ScheduledTask.lt a b = true) :
    tle a b := by
  rw [st_lt_iff] at h
  rw [tle_iff_queueOrder]
  unfold queueOrder
  omega

/-! ### Facts about indexed reads -/

theorem fget_def (l : List ScheduledTask) (i : Nat) :
    fget l i = l.getD i default := rfl

theorem fget_set_self {l : List ScheduledTask} {i : Nat} (x : ScheduledTask)
    (h : i < l.length) : fget (l.set i x) i = x := by
  unfold fget
  rw [List.getD_eq_get?, List.get?_set_eq_of_lt x h]
  rfl

theorem fget_set_ne {l : List ScheduledTask} {i j : Nat} (x : ScheduledTask)
    (h : i ≠ j) : fget (l.set i x) j = fget l j := by
  unfold fget
  rw [List.getD_eq_get?, List.getD_eq_get?, List.get?_set_ne x _ h]

theorem fget_append_left {l l2 : List ScheduledTask} {i : Nat}
    (h : i < l.length) : fget (l ++ l2) i = fget l i := by
  unfold fget
  rw [List.getD_eq_get?, List.getD_eq_get?, List.get?_append h]

theorem fget_concat_self (l : List ScheduledTask) (x : ScheduledTask) :
    fget (l ++ [x]) l.length = x := by
  unfold fget
  rw [List.getD_eq_get?, List.get?_concat_length]
  rfl

theorem fget_mem {l : List ScheduledTask} {i : Nat} (h : i < l.length) :
    fget l i ∈ l := by
  unfold fget
  rw [List.getD_eq_get?, List.get?_eq_get h]
  exact List.get_mem l i h

theorem fget_dropLast {l : List ScheduledTask} {i : Nat}
    (h : i < l.length - 1) : fget l.dropLast i = fget l i := by
  unfold fget
  rw [List.dropLast_eq_take, List.getD_eq_get?, List.getD_eq_get?,
    List.get?_take h]

theorem fget_cons_zero (a : ScheduledTask) (l : List ScheduledTask) :
    fget (a :: l) 0 = a := rfl

theorem fget_of_mem {l : List ScheduledTask} {y : ScheduledTask}
    (hy : y ∈ l) : ∃ i, i < l.length ∧ fget l i = y := by
  rcases List.getElem_of_mem hy with ⟨i, hi, hyi⟩
  refine ⟨i, hi, ?_⟩
  unfold fget
  rw [List.getD_eq_get?, List.get?_eq_get hi]
  exact hyi

/-! ### Heap-invariant preservation

`siftdownAux` is CPython's bubble-up loop.  The three preconditions say: (A)
the array satisfies the heap property on every parent edge not touching the
hole `pos`; (B) the children of the hole are no smaller than the item being
placed; (C) the children of the hole are no smaller than the hole's parent.
Under these, the loop restores the full heap property. -/

theorem siftdownAux_isHeap (pos : Nat) :
    ∀ (heap : List ScheduledTask) (newitem : ScheduledTask),
    pos < heap.length →
    (∀ j, j < heap.length → 0 < j → j ≠ pos → (j - 1) / 2 ≠ pos →
      tle (fget heap ((j - 1) / 2)) (fget heap j)) →
    (∀ j, j < heap.length → 0 < j → (j - 1) / 2 = pos →
      tle newitem (fget heap j)) →
    (∀ j, j < heap.length → 0 < j → (j - 1) / 2 = pos → 0 < pos →
      tle (fget heap ((pos - 1) / 2)) (fget heap j)) →
    IsHeap (siftdownAux heap 0 newitem pos) := by
  induction pos using Nat.strong_induction_on with
  | _ pos ih =>
    intro heap newitem hpos hA hB hC
    rw [siftdownAux]
    simp only [← fget_def]
    by_cases h0 : 0 < pos
    · rw [dif_pos h0]
      have hpplt : (pos - 1) / 2 < pos := by omega
      by_cases hlt :
          ScheduledTask.lt newitem (fget heap ((pos - 1) / 2)) = true
      · rw [if_pos hlt]
        apply ih ((pos - 1) / 2) hpplt
        · simpa using Nat.lt_trans hpplt hpos
        · intro j hj hj0 hjne hpne
          rw [List.length_set] at hj
          have hjpos : j ≠ pos := fun he => hpne (by rw [he])
          by_cases hpj : (j - 1) / 2 = pos
          · rw [hpj, fget_set_self _ hpos,
              fget_set_ne _ (fun he => hjpos he.symm)]
            exact hC j hj hj0 hpj h0
          · rw [fget_set_ne _ (fun he => hpj he.symm),
              fget_set_ne _ (fun he => hjpos he.symm)]
            exact hA j hj hj0 hjpos hpj
        · intro j hj hj0 hpj
          rw [List.length_set] at hj
          by_cases hjpos : j = pos
          · subst hjpos
            rw [fget_set_self _ hpos]
            exact lt_imp_tle hlt
          · rw [fget_set_ne _ (fun he => hjpos he.symm)]
            have hpne : (j - 1) / 2 ≠ pos := by omega
            have h1 := hA j hj hj0 hjpos hpne
            rw [hpj] at h1
            exact tle_trans (lt_imp_tle hlt) h1
        · intro j hj hj0 hpj hpp0
          rw [List.length_set] at hj
          have hgpne : ((pos - 1) / 2 - 1) / 2 ≠ pos := by omega
          rw [fget_set_ne _ (fun he => hgpne he.symm)]
          by_cases hjpos : j = pos
          · rw [hjpos, fget_set_self _ hpos]
            exact hA ((pos - 1) / 2) (Nat.lt_trans hpplt hpos) hpp0
              (by omega) (by omega)
          · rw [fget_set_ne _ (fun he => hjpos he.symm)]
            have e1 := hA ((pos - 1) / 2) (Nat.lt_trans hpplt hpos) hpp0
              (by omega) (by omega)
            have hpne : (j - 1) / 2 ≠ pos := by omega
            have e2 := hA j hj hj0 hjpos hpne
            rw [hpj] at e2
            exact tle_trans e1 e2
      · rw [if_neg hlt]
        intro j hj hj0
        rw [List.length_set] at hj
        by_cases hjpos : j = pos
        · rw [hjpos, fget_set_self _ hpos,
            fget_set_ne _ (by omega : pos ≠ (pos - 1) / 2)]
          exact Bool.eq_false_iff.mpr hlt
        · by_cases hpj : (j - 1) / 2 = pos
          · rw [hpj, fget_set_self _ hpos,
              fget_set_ne _ (fun he => hjpos he.symm)]
            exact hB j hj hj0 hpj
          · rw [fget_set_ne _ (fun he => hpj he.symm),
              fget_set_ne _ (fun he => hjpos he.symm)]
            exact hA j hj hj0 hjpos hpj
    · rw [dif_neg h0]
      have hpos0 : pos = 0 := by omega
      subst hpos0
      intro j hj hj0
      rw [List.length_set] at hj
      by_cases hpj : (j - 1) / 2 = 0
      · rw [hpj, fget_set_self _ hpos, fget_set_ne _ (by omega : 0 ≠ j)]
        exact hB j hj hj0 hpj
      · rw [fget_set_ne _ (fun he => hpj he.symm),
          fget_set_ne _ (by omega : 0 ≠ j)]
        exact hA j hj hj0 (by omega) hpj

theorem heappush_isHeap {heap : List ScheduledTask} (x : ScheduledTask)
    (h : IsHeap heap) : IsHeap (heappush heap x) := by
  unfold heappush siftdown
  rw [show (heap ++ [x]).getD heap.length default = x from
    fget_concat_self heap x]
  apply siftdownAux_isHeap
  · simp
  · intro j hj hj0 hjne hpne
    simp only [List.length_append, List.length_singleton] at hj
    have hjlt : j < heap.length := by omega
    have hplt : (j - 1) / 2 < heap.length := by omega
    rw [fget_append_left hjlt, fget_append_left hplt]
    exact h j hjlt hj0
  · intro j hj hj0 hpj
    simp only [List.length_append, List.length_singleton] at hj
    omega
  · intro j hj hj0 hpj hp0
    simp only [List.length_append, List.length_singleton] at hj
    omega

theorem siftupAux_isHeap (gap : Nat) :
    ∀ (heap : List ScheduledTask) (newitem : ScheduledTask) (pos : Nat),
    gap = heap.length - pos → pos < heap.length →
    (∀ j, j < heap.length → 0 < j → j ≠ pos → (j - 1) / 2 ≠ pos →
      tle (fget heap ((j - 1) / 2)) (fget heap j)) →
    (∀ j, j < heap.length → 0 < j → (j - 1) / 2 = pos → 0 < pos →
      tle (fget heap ((pos - 1) / 2)) (fget heap j)) →
    IsHeap (siftupAux heap 0 newitem pos) := by
  induction gap using Nat.strong_induction_on with
  | _ gap ih =>
    intro heap newitem pos hgap hpos hD1 hD2
    rw [siftupAux]
    simp only [← fget_def]
    by_cases hc : 2 * pos + 1 < heap.length
    · rw [dif_pos hc]
      by_cases hr : 2 * pos + 2 < heap.length ∧
          ScheduledTask.lt (fget heap (2 * pos + 1)) (fget heap (2 * pos + 2))
            = false
      · rw [dif_pos hr]
        apply ih (heap.length - (2 * pos + 2)) (by omega) _ _ (2 * pos + 2)
          (by simp) (by simpa using hr.1)
        · intro j hj hj0 hjne hpne
          rw [List.length_set] at hj
          by_cases hjpos : j = pos
          · rw [hjpos,
              fget_set_ne _ (by omega : pos ≠ (pos - 1) / 2),
              fget_set_self _ hpos]
            exact hD2 (2 * pos + 2) hr.1 (by omega) (by omega)
              (by rw [← hjpos]; omega)
          · by_cases hpjpos : (j - 1) / 2 = pos
            · have hj1 : j = 2 * pos + 1 := by omega
              rw [hpjpos, fget_set_self _ hpos,
                fget_set_ne _ (fun he => hjpos he.symm), hj1]
              exact hr.2
            · rw [fget_set_ne _ (fun he => hpjpos he.symm),
                fget_set_ne _ (fun he => hjpos he.symm)]
              exact hD1 j hj hj0 hjpos hpjpos
        · intro j hj hj0 hpj hc0
          rw [List.length_set] at hj
          have hcp : (2 * pos + 2 - 1) / 2 = pos := by omega
          have hjpos : j ≠ pos := by omega
          rw [hcp, fget_set_self _ hpos,
            fget_set_ne _ (fun he => hjpos he.symm)]
          have e := hD1 j hj hj0 hjpos (by omega)
          rw [hpj] at e
          exact e
      · rw [dif_neg hr]
        apply ih (heap.length - (2 * pos + 1)) (by omega) _ _ (2 * pos + 1)
          (by simp) (by simpa using hc)
        · intro j hj hj0 hjne hpne
          rw [List.length_set] at hj
          by_cases hjpos : j = pos
          · rw [hjpos,
              fget_set_ne _ (by omega : pos ≠ (pos - 1) / 2),
              fget_set_self _ hpos]
            exact hD2 (2 * pos + 1) hc (by omega) (by omega)
              (by rw [← hjpos]; omega)
          · by_cases hpjpos : (j - 1) / 2 = pos
            · have hj2 : j = 2 * pos + 2 := by omega
              have hj2len : 2 * pos + 2 < heap.length := by omega
              have hbt : ScheduledTask.lt (fget heap (2 * pos + 1))
                  (fget heap (2 * pos + 2)) = true := by
                cases hb : ScheduledTask.lt (fget heap (2 * pos + 1))
                    (fget heap (2 * pos + 2)) with
                | true => rfl
                | false => exact absurd ⟨hj2len, hb⟩ hr
              rw [hpjpos, fget_set_self _ hpos,
                fget_set_ne _ (fun he => hjpos he.symm), hj2]
              exact lt_imp_tle hbt
            · rw [fget_set_ne _ (fun he => hpjpos he.symm),
                fget_set_ne _ (fun he => hjpos he.symm)]
              exact hD1 j hj hj0 hjpos hpjpos
        · intro j hj hj0 hpj hc0
          rw [List.length_set] at hj
          have hcp : (2 * pos + 1 - 1) / 2 = pos := by omega
          have hjpos : j ≠ pos := by omega
          rw [hcp, fget_set_self _ hpos,
            fget_set_ne _ (fun he => hjpos he.symm)]
          have e := hD1 j hj hj0 hjpos (by omega)
          rw [hpj] at e
          exact e
    · rw [dif_neg hc]
      unfold siftdown
      rw [show (heap.set pos newitem).getD pos default = newitem from
        fget_set_self _ hpos]
      apply siftdownAux_isHeap pos
      · simpa using hpos
      · intro j hj hj0 hjne hpne
        rw [List.length_set] at hj
        rw [fget_set_ne _ (fun he => hpne he.symm),
          fget_set_ne _ (fun he => hjne he.symm)]
        exact hD1 j hj hj0 hjne hpne
      · intro j hj hj0 hpj
        rw [List.length_set] at hj
        omega
      · intro j hj hj0 hpj hp0
        rw [List.length_set] at hj
        omega

theorem siftdownAux_mem (pos : Nat) :
    ∀ (heap : List ScheduledTask) (newitem : ScheduledTask),
    pos < heap.length →
    ∀ y ∈ siftdownAux heap 0 newitem pos, y ∈ heap ∨ y = newitem := by
  induction pos using Nat.strong_induction_on with
  | _ pos ih =>
    intro heap newitem hpos y hy
    rw [siftdownAux] at hy
    by_cases h0 : 0 < pos
    · rw [dif_pos h0] at hy
      by_cases hlt : ScheduledTask.lt newitem
          (heap.getD ((pos - 1) / 2) default) = true
      · rw [if_pos hlt] at hy
        rcases ih ((pos - 1) / 2) (by omega) _ _
            (by simpa using Nat.lt_trans (by omega) hpos) y hy with h | h
        · rcases List.mem_or_eq_of_mem_set h with h2 | h2
          · exact Or.inl h2
          · refine Or.inl ?_
            rw [h2]
            exact fget_mem (show (pos - 1) / 2 < heap.length by omega)
        · exact Or.inr h
      · rw [if_neg hlt] at hy
        exact List.mem_or_eq_of_mem_set hy
    · rw [dif_neg h0] at hy
      exact List.mem_or_eq_of_mem_set hy

theorem siftupAux_mem (gap : Nat) :
    ∀ (heap : List ScheduledTask) (newitem : ScheduledTask) (pos : Nat),
    gap = heap.length - pos → pos < heap.length →
    ∀ y ∈ siftupAux heap 0 newitem pos, y ∈ heap ∨ y = newitem := by
  induction gap using Nat.strong_induction_on with
  | _ gap ih =>
    intro heap newitem pos hgap hpos y hy
    rw [siftupAux] at hy
    by_cases hc : 2 * pos + 1 < heap.length
    · rw [dif_pos hc] at hy
      by_cases hr : 2 * pos + 2 < heap.length ∧
          ScheduledTask.lt (heap.getD (2 * pos + 1) default)
            (heap.getD (2 * pos + 2) default) = false
      · rw [dif_pos hr] at hy
        rcases ih (heap.length - (2 * pos + 2)) (by omega) _ _ (2 * pos + 2)
            (by simp) (by simpa using hr.1) y hy with h | h
        · rcases List.mem_or_eq_of_mem_set h with h2 | h2
          · exact Or.inl h2
          · refine Or.inl ?_
            rw [h2]
            exact fget_mem hr.1
        · exact Or.inr h
      · rw [dif_neg hr] at hy
        rcases ih (heap.length - (2 * pos + 1)) (by omega) _ _ (2 * pos + 1)
            (by simp) (by simpa using hc) y hy with h | h
        · rcases List.mem_or_eq_of_mem_set h with h2 | h2
          · exact Or.inl h2
          · refine Or.inl ?_
            rw [h2]
            exact fget_mem hc
        · exact Or.inr h
    · rw [dif_neg hc] at hy
      unfold siftdown at hy
      rcases siftdownAux_mem pos (heap.set pos newitem) _
          (by simpa using hpos) y hy with h | h
      · exact List.mem_or_eq_of_mem_set h
      · refine Or.inr ?_
        rw [h]
        exact fget_set_self _ hpos

theorem isHeap_root_le {heap : List ScheduledTask} (h : IsHeap heap) :
    ∀ i, i < heap.length → tle (fget heap 0) (fget heap i) := by
  intro i
  induction i using Nat.strong_induction_on with
  | _ i ih =>
    intro hi
    by_cases h0 : 0 < i
    · exact tle_trans (ih ((i - 1) / 2) (by omega) (by omega)) (h i hi h0)
    · have hi0 : i = 0 := by omega
      rw [hi0]
      exact tle_refl _

theorem isHeap_root_le_mem {heap : List ScheduledTask} (h : IsHeap heap)
    {y : ScheduledTask} (hy : y ∈ heap) : tle (fget heap 0) y := by
  rcases fget_of_mem hy with ⟨i, hi, hyi⟩
  rw [← hyi]
  exact isHeap_root_le h i hi

/-- Specification of `heapq.heappop` on a valid heap: it returns the root —
the minimum of the heap order by `isHeap_root_le` — the remaining list is
again a valid heap, and every remaining element was in the heap. -/
theorem heappop_spec {heap : List ScheduledTask} {x : ScheduledTask}
    {rest : List ScheduledTask} (h : IsHeap heap)
    (hp : heappop heap = some (x, rest)) :
    IsHeap rest ∧ x = fget heap 0 ∧ ∀ y ∈ rest, y ∈ heap := by
  unfold heappop at hp
  cases hl : heap.getLast? with
  | none => rw [hl] at hp; simp at hp
  | some lastelt =>
    rw [hl] at hp
    have hne : heap ≠ [] := by rintro rfl; simp at hl
    have hlen : 0 < heap.length := List.length_pos.mpr hne
    have hlast : lastelt ∈ heap := by
      have := List.getLast?_eq_getLast heap hne
      rw [hl] at this
      have hx := Option.some.inj this
      rw [hx]
      exact List.getLast_mem hne
    simp only at hp
    cases hh : heap.dropLast.head? with
    | none =>
      rw [hh] at hp
      simp only [Option.some.injEq, Prod.mk.injEq] at hp
      obtain ⟨hx, hrest⟩ := hp
      refine ⟨?_, ?_, ?_⟩
      · rw [← hrest]
        intro j hj hj0
        simp at hj
      · have hnil : heap.dropLast = [] := List.head?_eq_none_iff.mp hh
        cases heap with
        | nil => simp at hl
        | cons a t =>
          cases t with
          | nil =>
            simp at hl
            rw [← hx, ← hl, fget_cons_zero]
          | cons b t2 => simp at hnil
      · intro y hy
        rw [← hrest] at hy
        simp at hy
    | some returnitem =>
      rw [hh] at hp
      simp only [Option.some.injEq, Prod.mk.injEq] at hp
      obtain ⟨hx, hrest⟩ := hp
      have hdnil : heap.dropLast ≠ [] := by
        intro hd
        rw [hd] at hh
        simp at hh
      have hdlen : 0 < heap.dropLast.length := List.length_pos.mpr hdnil
      have hlen2 : 1 < heap.length := by
        have := heap.length_dropLast
        omega
      have hx0 : x = fget heap 0 := by
        rw [← hx]
        cases hd : heap.dropLast with
        | nil => exact absurd hd hdnil
        | cons a t =>
          rw [hd] at hh
          simp at hh
          have h1 : fget heap.dropLast 0 = fget heap 0 := fget_dropLast
            (by omega)
          rw [hd, fget_cons_zero] at h1
          rw [← h1, hh]
      have hAnew : (heap.dropLast.set 0 lastelt).getD 0 default = lastelt :=
        fget_set_self _ hdlen
      have hD1 : ∀ j, j < (heap.dropLast.set 0 lastelt).length → 0 < j →
          j ≠ 0 → (j - 1) / 2 ≠ 0 →
          tle (fget (heap.dropLast.set 0 lastelt) ((j - 1) / 2))
            (fget (heap.dropLast.set 0 lastelt) j) := by
        intro j hj hj0 hjne hpne
        rw [List.length_set] at hj
        rw [fget_set_ne _ (fun he => hpne he.symm),
          fget_set_ne _ (fun he => hjne he.symm)]
        have hjlt : j < heap.length := by
          have := heap.length_dropLast
          omega
        rw [fget_dropLast (by omega), fget_dropLast (by
          have := heap.length_dropLast
          omega)]
        exact h j hjlt hj0
      refine ⟨?_, hx0, ?_⟩
      · rw [← hrest]
        unfold siftup
        rw [hAnew]
        apply siftupAux_isHeap ((heap.dropLast.set 0 lastelt).length) _ _ 0
          (by simp) (by simpa using hdlen) hD1
        intro j hj hj0 hpj hp0
        omega
      · intro y hy
        rw [← hrest] at hy
        unfold siftup at hy
        rw [hAnew] at hy
        rcases siftupAux_mem ((heap.dropLast.set 0 lastelt).length) _ _ 0
            (by simp) (by simpa using hdlen) y hy with h2 | h2
        · rcases List.mem_or_eq_of_mem_set h2 with h3 | h3
          · exact List.mem_of_mem_dropLast h3
          · rw [h3]
            exact hlast
        · rw [h2]
          exact hlast

/-- Full specification of the dispatch loop on a valid heap: every dispatched
task is due, the dispatched sequence respects the queue order pairwise, every
dispatched task came from the queue, the remaining queue is again a valid
heap, and if anything remains its head is not yet due. -/
theorem processDueAux_spec (fuel : Nat) :
    ∀ (queue : List ScheduledTask) (now : Nat), queue.length ≤ fuel →
    IsHeap queue →
    (∀ t ∈ (processDueAux fuel queue now).1, t.scheduled_time ≤ now) ∧
    List.Pairwise queueOrder (processDueAux fuel queue now).1 ∧
    (∀ t ∈ (processDueAux fuel queue now).1, t ∈ queue) ∧
    IsHeap (processDueAux fuel queue now).2 ∧
    (∀ t, (processDueAux fuel queue now).2.head? = some t →
      ¬ t.scheduled_time ≤ now) := by
  induction fuel with
  | zero =>
    intro queue now hlen hq
    have hq0 : queue = [] := by
      cases queue with
      | nil => rfl
      | cons a t => simp at hlen
    subst hq0
    refine ⟨by simp [processDueAux], by simp [processDueAux],
      by simp [processDueAux], ?_, ?_⟩
    · intro j hj hj0
      simp [processDueAux] at hj
    · intro t ht
      simp [processDueAux] at ht
  | succ fuel ih =>
    intro queue now hlen hq
    cases queue with
    | nil =>
      refine ⟨by simp [processDueAux], by simp [processDueAux],
        by simp [processDueAux], ?_, ?_⟩
      · intro j hj hj0
        simp [processDueAux] at hj
      · intro t ht
        simp [processDueAux] at ht
    | cons q0 qt =>
      by_cases hdue : q0.scheduled_time ≤ now
      · cases hp : heappop (q0 :: qt) with
        | none =>
          exfalso
          unfold heappop at hp
          cases hl : (q0 :: qt).getLast? with
          | none => simp at hl
          | some l2 =>
            rw [hl] at hp
            simp only at hp
            cases hh : (q0 :: qt).dropLast.head? with
            | none => rw [hh] at hp; simp at hp
            | some r2 => rw [hh] at hp; simp at hp
        | some pr =>
          obtain ⟨x, rest⟩ := pr
          have hred : processDueAux (fuel + 1) (q0 :: qt) now =
              (x :: (processDueAux fuel rest now).1,
                (processDueAux fuel rest now).2) := by
            rw [processDueAux]
            rw [if_pos hdue, hp]
          obtain ⟨hrheap, hx0, hrmem⟩ := heappop_spec hq hp
          have hrlen : rest.length ≤ fuel := by
            have := heappop_length _ _ _ hp
            simp only [List.length_cons] at this hlen
            omega
          obtain ⟨ih1, ih2, ih3, ih4, ih5⟩ := ih rest now hrlen hrheap
          rw [hred]
          refine ⟨?_, ?_, ?_, ih4, ih5⟩
          · intro t ht
            rcases List.mem_cons.mp ht with rfl | ht2
            · rw [hx0, fget_cons_zero]
              exact hdue
            · exact ih1 t ht2
          · refine List.Pairwise.cons ?_ ih2
            intro y hy
            have hyq : y ∈ (q0 :: qt) := hrmem y (ih3 y hy)
            have hroot := isHeap_root_le_mem hq hyq
            rw [← hx0] at hroot
            exact (tle_iff_queueOrder x y).mp hroot
          · intro t ht
            rcases List.mem_cons.mp ht with rfl | ht2
            · rw [hx0, fget_cons_zero]
              exact List.mem_cons_self q0 qt
            · exact hrmem t (ih3 t ht2)
      · have hred : processDueAux (fuel + 1) (q0 :: qt) now =
            ([], q0 :: qt) := by
          rw [processDueAux]
          rw [if_neg hdue]
        rw [hred]
        refine ⟨by simp, by simp, by simp, hq, ?_⟩
        intro t ht
        simp only [List.head?_cons, Option.some.injEq] at ht
        rw [← ht]
        exact hdue

/-- C2 counterexample: with a non-due `CRITICAL` task at the heap root and a
due `LOW` task behind it, the tick dispatches *nothing* — the loop stops at
the first non-due head, so a due task in the queue is not dispatched on that
tick, contradicting "every ScheduledTask whose scheduled_time <= now is
removed and dispatched on that tick". -/
theorem due_task_blocked_by_nondue_head :
    processDue (heappush (heappush [] critFutureTask) lowDueTask)
        (50 * secondUs) = ([], [critFutureTask, lowDueTask]) ∧
      lowDueTask.scheduled_time ≤ 50 * secondUs ∧
      lowDueTask ∈ (processDue (heappush (heappush [] critFutureTask)
        lowDueTask) (50 * secondUs)).2 := by
  have h1 : processDue (heappush (heappush [] critFutureTask) lowDueTask)
      (50 * secondUs) = ([], [critFutureTask, lowDueTask]) := by
    simp [processDue, processDueAux, heappop, heappush, siftdown, siftdownAux,
      siftup, siftupAux, ScheduledTask.lt, TaskPriority.value, critFutureTask,
      lowDueTask, secondUs]
  refine ⟨h1, by decide, ?_⟩
  rw [h1]
  simp

/-- C2 (amended): on each scheduler tick the loop repeatedly pops the heap
head while it is due.  Every dispatched task is due; the dispatched sequence
respects the queue order (more urgent priority first, non-decreasing
scheduled time within one priority); the remaining queue is still a valid
heap; and when the loop stops with a non-empty queue its head is not due —
but a due task deeper in the heap, behind a non-due more-urgent head, stays
queued until a later tick (see the counterexample). -/
theorem scheduler_tick_dispatch_spec (queue : List ScheduledTask) (now : Nat)
    (hq : IsHeap queue) :
    (∀ t ∈ (processDue queue now).1, t.scheduled_time ≤ now) ∧
    List.Pairwise queueOrder (processDue queue now).1 ∧
    IsHeap (processDue queue now).2 ∧
    (∀ t, (processDue queue now).2.head? = some t →
      ¬ t.scheduled_time ≤ now) := by
  obtain ⟨h1, h2, h3, h4, h5⟩ :=
    processDueAux_spec queue.length queue now le_rfl hq
  exact ⟨h1, h2, h4, h5⟩

/-- Witness for C2 (amended): a concrete two-element heap of due tasks
satisfies the dispatch specification. -/
theorem scheduler_tick_dispatch_spec_witness :
    IsHeap [critNowTask, lowDueTask] ∧
      ((∀ t ∈ (processDue [critNowTask, lowDueTask] 0).1,
          t.scheduled_time ≤ 0) ∧
        List.Pairwise queueOrder (processDue [critNowTask, lowDueTask] 0).1 ∧
        IsHeap (processDue [critNowTask, lowDueTask] 0).2 ∧
        (∀ t, (processDue [critNowTask, lowDueTask] 0).2.head? = some t →
          ¬ t.scheduled_time ≤ 0)) := by
  have hq : IsHeap [critNowTask, lowDueTask] := by
    intro j hj hj0
    simp only [List.length_cons, List.length_nil] at hj
    have hj1 : j = 1 := by omega
    rw [hj1]
    exact rfl
  exact ⟨hq, scheduler_tick_dispatch_spec [critNowTask, lowDueTask] 0 hq⟩

/-- C3 counterexample: `__lt__` reads the live fields, so mutating a queued
item *can* silently reorder the heap.  Three same-priority tasks pushed in
time order occupy `[early, mid, late]`; after an in-place mutation of the
queued third object's `scheduled_time` to 1, the pop order becomes
`[early, mutated-late, mid]` — the mutated task overtakes `mid`, whereas
without mutation the pop order is `[early, mid, late]`. -/
theorem queued_mutation_reorders_heap :
    heappush (heappush (heappush [] medEarlyTask) medMidTask) medLateTask
        = [medEarlyTask, medMidTask, medLateTask] ∧
      (processDue [medEarlyTask, medMidTask, medLateTask] 1000).1
        = [medEarlyTask, medMidTask, medLateTask] ∧
      (processDue ([medEarlyTask, medMidTask, medLateTask].set 2
          { medLateTask with scheduled_time := 1 }) 1000).1
        = [medEarlyTask, { medLateTask with scheduled_time := 1 },
            medMidTask] := by
  refine ⟨?_, ?_, ?_⟩ <;>
    simp [processDue, processDueAux, heappop, heappush, siftdown, siftdownAux,
      siftup, siftupAux, ScheduledTask.lt, TaskPriority.value, medEarlyTask,
      medMidTask, medLateTask, medNowTask]

/-- C3 (amended): the queue order is the *two-part* live key (priority value
ascending, then scheduled time ascending) — there is no insertion-sequence
component, ties are left unordered, and the key is re-read from the mutable
fields on every comparison, so in-place mutation of a queued item can reorder
the heap.  The claimed concrete scenario does hold: Low, Critical and Medium
tasks all due now are dispatched Critical, Medium, Low. -/
theorem queue_key_two_part_and_scenario_order :
    (∀ a b : ScheduledTask, ScheduledTask.lt a b = true ↔
        (a.priority.value < b.priority.value ∨
          (a.priority.value = b.priority.value ∧
            a.scheduled_time < b.scheduled_time))) ∧
      (processDue (heappush (heappush (heappush [] lowDueTask) critNowTask)
          medNowTask) 0).1 = [critNowTask, medNowTask, lowDueTask] := by
  refine ⟨st_lt_iff, ?_⟩
  simp [processDue, processDueAux, heappop, heappush, siftdown, siftdownAux,
    siftup, siftupAux, ScheduledTask.lt, TaskPriority.value, lowDueTask,
    critNowTask, medNowTask, critFutureTask, secondUs]
